import Mathlib

/-!
Shallow embedding of the Ledger & Session Integrity Core of the
credit-jambo savings-account application, together with theorems checking
the natural-language specification against the code.

Money amounts are modelled as exact rationals (the parsed decimal values
that cross the JSON boundary); identifiers and instants are natural
numbers; the Mongo stores are lists of records; every store-mutating
operation returns the new store paired with an `Except`-style outcome,
an error meaning the whole atomic unit aborted and the store is unchanged.
-/

namespace CreditJambo

/-! ## Data model (models/customer.model.ts, models/transaction.model.ts) -/

/-- A device embedded in a customer document (`DeviceSchema`). -/
structure Device where
  deviceId : String
  deviceIdHash : String
  isVerified : Bool
  createdAt : Nat
  lastLoginAt : Option Nat := none
  deriving Repr, DecidableEq

/-- A customer document (`CustomerSchema`). -/
structure Customer where
  id : Nat
  email : String
  phone : String
  password : String
  balance : Rat
  devices : List Device
  isActive : Bool
  lastLoginAt : Option Nat := none
  deriving Repr, DecidableEq

/-- `TransactionType` from models/transaction.model.ts. -/
inductive Tt where
  | deposit
  | withdrawal
  | transferIn
  | transferOut
  | interest
  | fee
  deriving Repr, DecidableEq

/-- `TransactionStatus` from models/transaction.model.ts. -/
inductive Ts where
  | pending
  | completed
  | failed
  | cancelled
  deriving Repr, DecidableEq

/-- A ledger entry (`TransactionSchema`). -/
structure Txn where
  id : Nat
  customerId : Nat
  type : Tt
  amount : Rat
  balanceBefore : Rat
  balanceAfter : Rat
  status : Ts
  reference : String
  relatedTransactionId : Option Nat := none
  createdAt : Nat
  deriving Repr, DecidableEq

/-- The durable store the Ledger Engine reads and mutates. -/
structure Bank where
  customers : List Customer
  transactions : List Txn
  deriving Repr, DecidableEq

/-- Typed outcomes of Ledger Engine operations (`AppError` cases thrown by
transaction.service.ts and the transfer controller). -/
inductive LedgerError where
  | customerNotFound
  | accountInactive
  | insufficientFunds
  | invalidTransfer
  deriving Repr, DecidableEq

/-- `Customer.findById` on the store. -/
def findCustomer (b : Bank) (cid : Nat) : Option Customer :=
  b.customers.find? (fun c => c.id == cid)

/-- Write back a customer's balance (`customer.balance = balanceAfter; customer.save()`). -/
def updateCustomerBalance (cs : List Customer) (cid : Nat) (newBal : Rat) : List Customer :=
  cs.map (fun c => if c.id == cid then { c with balance := newBal } else c)

/-! ## Ledger Engine (services/transaction.service.ts) -/

/-- `TransactionService.customerDeposit`: load customer, check existence and
`isActive`, snapshot balances, append one completed `deposit` transaction and
write the new balance, all in one atomic unit.  On any error the unit aborts
and the store is returned unchanged. -/
def customerDeposit (b : Bank) (cid : Nat) (amount : Rat) (txId : Nat) (ref : String)
    (now : Nat) : Bank × Except LedgerError Txn :=
  match findCustomer b cid with
  | none => (b, .error .customerNotFound)
  | some customer =>
    if !customer.isActive then (b, .error .accountInactive)
    else
      let balanceBefore := customer.balance
      let balanceAfter := balanceBefore + amount
      let txn : Txn :=
        { id := txId, customerId := customer.id, type := .deposit, amount,
          balanceBefore, balanceAfter, status := .completed, reference := ref,
          createdAt := now }
      ({ customers := updateCustomerBalance b.customers cid balanceAfter,
         transactions := b.transactions ++ [txn] }, .ok txn)

/-- `TransactionService.customerWithdraw`: like deposit, but rejects
`balanceBefore < amount` with the insufficient-balance error before any write. -/
def customerWithdraw (b : Bank) (cid : Nat) (amount : Rat) (txId : Nat) (ref : String)
    (now : Nat) : Bank × Except LedgerError Txn :=
  match findCustomer b cid with
  | none => (b, .error .customerNotFound)
  | some customer =>
    if !customer.isActive then (b, .error .accountInactive)
    else
      let balanceBefore := customer.balance
      if balanceBefore < amount then (b, .error .insufficientFunds)
      else
        let balanceAfter := balanceBefore - amount
        let txn : Txn :=
          { id := txId, customerId := customer.id, type := .withdrawal, amount,
            balanceBefore, balanceAfter, status := .completed, reference := ref,
            createdAt := now }
        ({ customers := updateCustomerBalance b.customers cid balanceAfter,
           transactions := b.transactions ++ [txn] }, .ok txn)

/-- `createTransfer` (transaction.controller.ts): reject self-transfer first,
then require both customers to exist and be active and the source balance to
cover the amount; append the linked `transfer_out`/`transfer_in` pair and move
the balances inside one atomic unit. -/
def createTransfer (b : Bank) (fromId toId : Nat) (amount : Rat)
    (outTxId inTxId : Nat) (refOut refIn : String) (now : Nat) :
    Bank × Except LedgerError (Txn × Txn) :=
  if fromId == toId then (b, .error .invalidTransfer)
  else
    match findCustomer b fromId, findCustomer b toId with
    | none, _ => (b, .error .customerNotFound)
    | some _, none => (b, .error .customerNotFound)
    | some fromCustomer, some toCustomer =>
      if !fromCustomer.isActive || !toCustomer.isActive then
        (b, .error .accountInactive)
      else if fromCustomer.balance < amount then
        (b, .error .insufficientFunds)
      else
        let transferOutTx : Txn :=
          { id := outTxId, customerId := fromCustomer.id, type := .transferOut, amount,
            balanceBefore := fromCustomer.balance,
            balanceAfter := fromCustomer.balance - amount,
            status := .completed, reference := refOut, createdAt := now }
        let transferInTx : Txn :=
          { id := inTxId, customerId := toCustomer.id, type := .transferIn, amount,
            balanceBefore := toCustomer.balance,
            balanceAfter := toCustomer.balance + amount,
            status := .completed, reference := refIn,
            relatedTransactionId := some transferOutTx.id, createdAt := now }
        let linkedOutTx := { transferOutTx with relatedTransactionId := some transferInTx.id }
        let customers' :=
          updateCustomerBalance
            (updateCustomerBalance b.customers fromId (fromCustomer.balance - amount))
            toId (toCustomer.balance + amount)
        ({ customers := customers',
           transactions := b.transactions ++ [linkedOutTx, transferInTx] },
         .ok (linkedOutTx, transferInTx))

/-! ## Helper lemmas about the store -/

/-- `find?` keyed on the id commutes with mapping an id-preserving rewrite over
the customer list. -/
theorem find?_map_of_id (f : Customer → Customer) (hf : ∀ c, (f c).id = c.id)
    (cs : List Customer) (cid : Nat) :
    (cs.map f).find? (fun x => x.id == cid) =
      (cs.find? (fun x => x.id == cid)).map f := by
  induction cs with
  | nil => rfl
  | cons hd tl ih =>
    have hsame : ((f hd).id == cid) = (hd.id == cid) := by rw [hf]
    rcases hb : (hd.id == cid) with _ | _
    · rw [List.map_cons, List.find?_cons_of_neg _ (by simp [hsame, hb]),
        List.find?_cons_of_neg _ (by simp [hb]), ih]
    · rw [List.map_cons, List.find?_cons_of_pos _ (by simp [hsame, hb]),
        List.find?_cons_of_pos _ (by simp [hb])]
      rfl

/-- Updating one customer's balance leaves the lookup keyed by that id pointing
at the rewritten record. -/
theorem findCustomer_updateBalance (cs : List Customer) (cid : Nat) (nb : Rat) (c : Customer)
    (h : cs.find? (fun x => x.id == cid) = some c) :
    (updateCustomerBalance cs cid nb).find? (fun x => x.id == cid) =
      some { c with balance := nb } := by
  unfold updateCustomerBalance
  rw [find?_map_of_id _ (fun c => by by_cases hcc : (c.id == cid) = true <;> simp [hcc]), h]
  have hceq : c.id = cid := by simpa using List.find?_some h
  simp [hceq]

/-- Lookups keyed by a different id are untouched by a balance update. -/
theorem findCustomer_updateBalance_ne (cs : List Customer) (cid cid' : Nat) (nb : Rat)
    (h : cid' ≠ cid) :
    (updateCustomerBalance cs cid nb).find? (fun x => x.id == cid') =
      cs.find? (fun x => x.id == cid') := by
  unfold updateCustomerBalance
  rw [find?_map_of_id _ (fun c => by by_cases hcc : (c.id == cid) = true <;> simp [hcc])]
  rcases hfind : cs.find? (fun x => x.id == cid') with _ | c
  · rw [hfind]; rfl
  · rw [hfind]
    have hceq : c.id = cid' := by simpa using List.find?_some hfind
    have hne : c.id ≠ cid := by omega
    simp [hne]

/-! ## A concrete store for the spec's worked scenarios -/

/-- The account of the spec scenario that starts at balance 1000. -/
def wAlice : Customer :=
  { id := 1, email := "alice@example.com", phone := "0788000001",
    password := "hashed-pw-a", balance := 1000, devices := [], isActive := true }

/-- The destination account of the spec's transfer scenario, starting at 200. -/
def wBob : Customer :=
  { id := 2, email := "bob@example.com", phone := "0788000002",
    password := "hashed-pw-b", balance := 200, devices := [], isActive := true }

/-- The store the spec's deposit/withdraw/transfer scenarios run against. -/
def depositScenarioBank : Bank :=
  { customers := [wAlice, wBob], transactions := [] }

/-! ## Ledger Engine theorems -/

/-- C3: for an existing active account and a positive amount, Deposit succeeds
with `balanceAfter = balanceBefore + amount`, stores the new balance, and writes
exactly one completed `deposit` transaction carrying the atomically-taken
snapshots; an absent account fails with not-found and a deactivated one with
account-inactive, in both cases leaving the store untouched. -/
theorem customerDeposit_spec (b : Bank) (cid : Nat) (amount : Rat) (txId : Nat)
    (ref : String) (now : Nat) :
    (findCustomer b cid = none →
      customerDeposit b cid amount txId ref now = (b, .error .customerNotFound)) ∧
    (∀ c, findCustomer b cid = some c → c.isActive = false →
      customerDeposit b cid amount txId ref now = (b, .error .accountInactive)) ∧
    (∀ c, findCustomer b cid = some c → c.isActive = true → 0 < amount →
      customerDeposit b cid amount txId ref now =
        ({ customers := updateCustomerBalance b.customers cid (c.balance + amount),
           transactions := b.transactions ++
             [{ id := txId, customerId := c.id, type := .deposit, amount,
                balanceBefore := c.balance, balanceAfter := c.balance + amount,
                status := .completed, reference := ref, createdAt := now }] },
         .ok { id := txId, customerId := c.id, type := .deposit, amount,
               balanceBefore := c.balance, balanceAfter := c.balance + amount,
               status := .completed, reference := ref, createdAt := now }) ∧
      findCustomer (customerDeposit b cid amount txId ref now).1 cid =
        some { c with balance := c.balance + amount }) := by
  refine ⟨fun h => ?_, fun c h hact => ?_, fun c h hact _ => ?_⟩
  · simp [customerDeposit, h]
  · simp [customerDeposit, h, hact]
  · refine ⟨by simp [customerDeposit, h, hact], ?_⟩
    have hfind := findCustomer_updateBalance b.customers cid (c.balance + amount) c h
    simp only [customerDeposit, h, hact, Bool.not_true]
    simpa [findCustomer, hact] using hfind

/-- Witness: the spec scenario — balance 1000, Deposit(500) leaves the account
at 1500 with the completed `deposit` entry recorded. -/
theorem customerDeposit_spec_witness :
    customerDeposit depositScenarioBank 1 500 10 "DEP-1" 5 =
      ({ customers := updateCustomerBalance depositScenarioBank.customers 1
           (wAlice.balance + 500),
         transactions := depositScenarioBank.transactions ++
           [{ id := 10, customerId := 1, type := .deposit, amount := 500,
              balanceBefore := wAlice.balance, balanceAfter := wAlice.balance + 500,
              status := .completed, reference := "DEP-1", createdAt := 5 }] },
       .ok { id := 10, customerId := 1, type := .deposit, amount := 500,
             balanceBefore := wAlice.balance, balanceAfter := wAlice.balance + 500,
             status := .completed, reference := "DEP-1", createdAt := 5 }) ∧
    findCustomer (customerDeposit depositScenarioBank 1 500 10 "DEP-1" 5).1 1 =
      some { wAlice with balance := wAlice.balance + 500 } :=
  (customerDeposit_spec depositScenarioBank 1 500 10 "DEP-1" 5).2.2 wAlice
    (by decide) (by decide) (by norm_num)

/-- C1: for an existing active account, Withdraw with an amount exceeding the
balance fails with insufficient-funds and mutates nothing; with a positive
amount at most the balance (equality allowed) it succeeds, the balance drops by
the amount, and exactly one completed `withdrawal` transaction is recorded with
the before/after snapshots. -/
theorem customerWithdraw_spec (b : Bank) (cid : Nat) (amount : Rat) (txId : Nat)
    (ref : String) (now : Nat) :
    (∀ c, findCustomer b cid = some c → c.isActive = true → c.balance < amount →
      customerWithdraw b cid amount txId ref now = (b, .error .insufficientFunds)) ∧
    (∀ c, findCustomer b cid = some c → c.isActive = true → 0 < amount →
      amount ≤ c.balance →
      customerWithdraw b cid amount txId ref now =
        ({ customers := updateCustomerBalance b.customers cid (c.balance - amount),
           transactions := b.transactions ++
             [{ id := txId, customerId := c.id, type := .withdrawal, amount,
                balanceBefore := c.balance, balanceAfter := c.balance - amount,
                status := .completed, reference := ref, createdAt := now }] },
         .ok { id := txId, customerId := c.id, type := .withdrawal, amount,
               balanceBefore := c.balance, balanceAfter := c.balance - amount,
               status := .completed, reference := ref, createdAt := now }) ∧
      findCustomer (customerWithdraw b cid amount txId ref now).1 cid =
        some { c with balance := c.balance - amount }) := by
  refine ⟨fun c h hact hlt => ?_, fun c h hact _ hle => ?_⟩
  · simp [customerWithdraw, h, hact, hlt]
  · have hnlt : ¬ c.balance < amount := not_lt.mpr hle
    refine ⟨by simp [customerWithdraw, h, hact, hnlt], ?_⟩
    have hfind := findCustomer_updateBalance b.customers cid (c.balance - amount) c h
    simp only [customerWithdraw, h, hact, hnlt, Bool.not_true, if_false]
    simpa [findCustomer, hact] using hfind

/-- Witness: the spec scenario — Withdraw(2000) on balance 1000 is rejected
with no mutation; Withdraw(500) on the same account succeeds. -/
theorem customerWithdraw_spec_witness :
    customerWithdraw depositScenarioBank 1 2000 11 "WTH-1" 6 =
      (depositScenarioBank, .error .insufficientFunds) ∧
    findCustomer (customerWithdraw depositScenarioBank 1 500 12 "WTH-2" 7).1 1 =
      some { wAlice with balance := wAlice.balance - 500 } :=
  ⟨(customerWithdraw_spec depositScenarioBank 1 2000 11 "WTH-1" 6).1 wAlice
     (by decide) (by decide) (by norm_num [wAlice]),
   ((customerWithdraw_spec depositScenarioBank 1 500 12 "WTH-2" 7).2 wAlice
     (by decide) (by decide) (by norm_num) (by norm_num [wAlice])).2⟩

/-- C2: a transfer between two distinct existing active accounts with the
source balance covering the amount moves the amount from source to destination
and appends exactly two completed, mutually-linked transfer records; a
self-transfer is rejected with invalid-transfer and mutates nothing. -/
theorem createTransfer_spec (b : Bank) (fromId toId : Nat) (amount : Rat)
    (outTxId inTxId : Nat) (refOut refIn : String) (now : Nat) :
    (fromId = toId →
      createTransfer b fromId toId amount outTxId inTxId refOut refIn now =
        (b, .error .invalidTransfer)) ∧
    (∀ fromC toC, fromId ≠ toId →
      findCustomer b fromId = some fromC → findCustomer b toId = some toC →
      fromC.isActive = true → toC.isActive = true → amount ≤ fromC.balance →
      let outTx : Txn :=
        { id := outTxId, customerId := fromC.id, type := .transferOut, amount,
          balanceBefore := fromC.balance, balanceAfter := fromC.balance - amount,
          status := .completed, reference := refOut,
          relatedTransactionId := some inTxId, createdAt := now }
      let inTx : Txn :=
        { id := inTxId, customerId := toC.id, type := .transferIn, amount,
          balanceBefore := toC.balance, balanceAfter := toC.balance + amount,
          status := .completed, reference := refIn,
          relatedTransactionId := some outTxId, createdAt := now }
      createTransfer b fromId toId amount outTxId inTxId refOut refIn now =
        ({ customers :=
             updateCustomerBalance
               (updateCustomerBalance b.customers fromId (fromC.balance - amount))
               toId (toC.balance + amount),
           transactions := b.transactions ++ [outTx, inTx] },
         .ok (outTx, inTx)) ∧
      outTx.relatedTransactionId = some inTx.id ∧
      inTx.relatedTransactionId = some outTx.id ∧
      outTx.amount = inTx.amount ∧
      findCustomer (createTransfer b fromId toId amount outTxId inTxId refOut refIn now).1
          fromId = some { fromC with balance := fromC.balance - amount } ∧
      findCustomer (createTransfer b fromId toId amount outTxId inTxId refOut refIn now).1
          toId = some { toC with balance := toC.balance + amount }) := by
  constructor
  · intro h
    subst h
    simp [createTransfer]
  · intro fromC toC hne hfrom hto hact1 hact2 hle
    have hbeq : (fromId == toId) = false := by simpa using hne
    have hnlt : ¬ fromC.balance < amount := not_lt.mpr hle
    refine ⟨by simp [createTransfer, hbeq, hfrom, hto, hact1, hact2, hnlt], rfl, rfl, rfl,
      ?_, ?_⟩
    · have h1 := findCustomer_updateBalance_ne
        (updateCustomerBalance b.customers fromId (fromC.balance - amount)) toId fromId
        (toC.balance + amount) hne
      have h2 := findCustomer_updateBalance b.customers fromId (fromC.balance - amount)
        fromC hfrom
      simp only [createTransfer, hbeq, hfrom, hto, hact1, hact2, hnlt, Bool.not_true,
        Bool.or_self, if_false]
      simpa [findCustomer, h1, hact1] using h2
    · have h1 := findCustomer_updateBalance_ne b.customers fromId toId
        (fromC.balance - amount) (Ne.symm hne)
      have h2 := findCustomer_updateBalance
        (updateCustomerBalance b.customers fromId (fromC.balance - amount)) toId
        (toC.balance + amount) toC (by rw [h1]; exact hto)
      simp only [createTransfer, hbeq, hfrom, hto, hact1, hact2, hnlt, Bool.not_true,
        Bool.or_self, if_false]
      simpa [findCustomer, hact2] using h2

/-- Witness: the spec scenario — Transfer(A→B, 300) with A at 1000 and B at 200
leaves A at 700 and B at 500, with the two linked records; the self-transfer
Transfer(A→A, 300) is rejected. -/
theorem createTransfer_spec_witness :
    createTransfer depositScenarioBank 1 1 300 20 21 "TRF-1" "TRF-2" 8 =
      (depositScenarioBank, .error .invalidTransfer) ∧
    findCustomer (createTransfer depositScenarioBank 1 2 300 20 21 "TRF-1" "TRF-2" 8).1 1 =
      some { wAlice with balance := wAlice.balance - 300 } ∧
    findCustomer (createTransfer depositScenarioBank 1 2 300 20 21 "TRF-1" "TRF-2" 8).1 2 =
      some { wBob with balance := wBob.balance + 300 } := by
  have h := (createTransfer_spec depositScenarioBank 1 2 300 20 21 "TRF-1" "TRF-2" 8).2
    wAlice wBob (by decide) (by decide) (by decide) (by decide) (by decide)
    (by norm_num [wAlice])
  exact ⟨(createTransfer_spec depositScenarioBank 1 1 300 20 21 "TRF-1" "TRF-2" 8).1 rfl,
    h.2.2.2.2.1, h.2.2.2.2.2⟩

/-! ## Authentication & sessions (models/session.model.ts, services/auth.service.ts,
middleware auth — part_005 of the unnamed sources) -/

/-- `hashData` (utils/crypto.util.ts): SHA-256 of the device identifier,
modelled as an injective tagging of the input. -/
def hashData (s : String) : String := "sha256:" ++ s

/-- bcrypt password hashing, modelled as an injective tagging. -/
def bcryptHash (s : String) : String := "bcrypt:" ++ s

/-- `bcrypt.compare(password, storedHash)`. -/
def bcryptCompare (password stored : String) : Bool := stored == bcryptHash password

/-- `SessionType` from models/session.model.ts. -/
inductive SessionType where
  | customer
  | admin
  deriving Repr, DecidableEq, Inhabited

/-- A session document (`SessionSchema`); instants are epoch milliseconds. -/
structure Session where
  id : Nat
  userId : Nat
  userType : SessionType
  token : String
  deviceIdHash : String
  isActive : Bool
  expiresAt : Nat
  lastActivityAt : Nat
  createdAt : Nat
  deriving Repr, DecidableEq, Inhabited

/-- An administrator document, reduced to the fields the core reads. -/
structure Admin where
  id : Nat
  email : String
  password : String
  isActive : Bool
  deriving Repr, DecidableEq

/-- The stores the Authentication Orchestrator touches. -/
structure AuthDb where
  customers : List Customer
  admins : List Admin
  sessions : List Session
  deriving Repr, DecidableEq

/-- Typed outcomes of the authentication flows (`AppError` cases of
auth.service.ts and the authenticate middleware). -/
inductive AuthError where
  | invalidCredentials
  | accountInactive
  | deviceNotRegistered
  | deviceNotVerified
  | invalidSession
  | sessionExpired
  | sessionNotFound
  | userNotFoundOrInactive
  deriving Repr, DecidableEq

/-- The payload the issued JWT encodes: the bearer credential. -/
structure JwtPayload where
  userId : Nat
  userType : SessionType
  sessionId : Nat
  deriving Repr, DecidableEq, Inhabited

/-- One hour in milliseconds (`setHours(getHours() + h)` steps). -/
def msPerHour : Nat := 3600000

/-- Customer sessions last 24 hours (auth.service.ts line 135). -/
def customerSessionHours : Nat := 24

/-- Admin sessions last 8 hours (auth.service.ts line 281). -/
def adminSessionHours : Nat := 8

/-- The `{ userId, deviceIdHash }` Mongo filter used by the login cleanup. -/
def sessionMatchesPair (uid : Nat) (dh : String) (s : Session) : Bool :=
  s.userId == uid && s.deviceIdHash == dh

/-- `.sort({ createdAt: -1 })` on a session query. -/
def sortSessionsByCreatedAtDesc (l : List Session) : List Session :=
  l.insertionSort (fun a b => b.createdAt ≤ a.createdAt)

/-- Number of session records stored for one (account, device) pair. -/
def countPairSessions (sessions : List Session) (uid : Nat) (dh : String) : Nat :=
  (sessions.filter (sessionMatchesPair uid dh)).length

/-- Steps 1–3 of the login session cleanup (auth.service.ts lines 127–152):
delete the (account, device) pair's sessions — the same deleteMany is issued
twice — then sweep the account's expired or inactive sessions. -/
def purgePairAndStale (sessions : List Session) (uid : Nat) (dh : String) (now : Nat) :
    List Session :=
  ((sessions.filter (fun s => !sessionMatchesPair uid dh s)).filter
      (fun s => !sessionMatchesPair uid dh s)).filter
    (fun s => !(s.userId == uid && (decide (s.expiresAt < now) || !s.isActive)))

/-- The session document `Session.create` inserts on login: active, expiring
24 hours out, stamped with the fresh token. -/
def freshCustomerSession (uid : Nat) (dh : String) (now sid : Nat) (tok : String) :
    Session :=
  { id := sid, userId := uid, userType := .customer, token := tok, deviceIdHash := dh,
    isActive := true, expiresAt := now + customerSessionHours * msPerHour,
    lastActivityAt := now, createdAt := now }

/-- The final consistency guard (lines 182–194): re-query the pair sorted by
`createdAt` descending; when more than one session came back, keep only the
most recent and delete the rest by id. -/
def dedupeGuard (l : List Session) (uid : Nat) (dh : String) : List Session :=
  let duplicateSessions := sortSessionsByCreatedAtDesc (l.filter (sessionMatchesPair uid dh))
  if duplicateSessions.length > 1 then
    let doomed := (duplicateSessions.drop 1).map (fun s => s.id)
    l.filter (fun s => !doomed.contains s.id)
  else l

/-- The session half of `AuthService.loginCustomer` (lines 127–194): purge,
create the new session, then run the consistency guard. -/
def reconcileCustomerSessions (sessions : List Session) (uid : Nat) (dh : String)
    (now sid : Nat) (tok : String) : List Session × Session :=
  (dedupeGuard (purgePairAndStale sessions uid dh now ++ [freshCustomerSession uid dh now sid tok])
      uid dh,
   freshCustomerSession uid dh now sid tok)

/-- `device.lastLoginAt = new Date(); customer.lastLoginAt = new Date();
customer.save()` before the session work. -/
def updateLastLogin (cs : List Customer) (cid : Nat) (dh : String) (now : Nat) :
    List Customer :=
  cs.map (fun c =>
    if c.id == cid then
      { c with lastLoginAt := some now,
               devices := c.devices.map (fun d =>
                 if d.deviceIdHash == dh then { d with lastLoginAt := some now } else d) }
    else c)

/-- `AuthService.loginCustomer`: credential check (absent account and wrong
password are indistinguishable), active check, device lookup by hash with the
registered/verified gates, then last-login stamping and session
reconciliation; the issued JWT carries the customer id and the new session id. -/
def loginCustomer (db : AuthDb) (email password deviceId : String)
    (now sid : Nat) (tok : String) : AuthDb × Except AuthError JwtPayload :=
  match db.customers.find? (fun c => c.email == email) with
  | none => (db, .error .invalidCredentials)
  | some customer =>
    if !customer.isActive then (db, .error .accountInactive)
    else if !bcryptCompare password customer.password then (db, .error .invalidCredentials)
    else
      match customer.devices.find? (fun d => d.deviceIdHash == hashData deviceId) with
      | none => (db, .error .deviceNotRegistered)
      | some device =>
        if !device.isVerified then (db, .error .deviceNotVerified)
        else
          ({ db with
              customers := updateLastLogin db.customers customer.id (hashData deviceId) now,
              sessions :=
                (reconcileCustomerSessions db.sessions customer.id (hashData deviceId)
                    now sid tok).1 },
           .ok { userId := customer.id, userType := .customer,
                 sessionId :=
                   (reconcileCustomerSessions db.sessions customer.id (hashData deviceId)
                       now sid tok).2.id })

/-- The fresh inputs (clock instant, generated session id, generated token) of
one login request. -/
structure LoginAttempt where
  now : Nat
  freshSessionId : Nat
  freshToken : String
  deriving Repr, DecidableEq

/-- A sequence of logins for one account and device, each completing before the
next starts; `none` if any attempt is rejected, otherwise the final store and
the last issued credential. -/
def loginMany (db : AuthDb) (email password deviceId : String) :
    List LoginAttempt → Option (AuthDb × JwtPayload)
  | [] => none
  | [a] =>
    match loginCustomer db email password deviceId a.now a.freshSessionId a.freshToken with
    | (db', .ok out) => some (db', out)
    | (_, .error _) => none
  | a :: rest =>
    match loginCustomer db email password deviceId a.now a.freshSessionId a.freshToken with
    | (db', .ok _) => loginMany db' email password deviceId rest
    | (_, .error _) => none

/-- `Session.findById` on the store. -/
def findSession (sessions : List Session) (sid : Nat) : Option Session :=
  sessions.find? (fun s => s.id == sid)

/-- `session.isActive = false; session.save()` on expiry detection. -/
def setSessionInactive (sessions : List Session) (sid : Nat) : List Session :=
  sessions.map (fun s => if s.id == sid then { s with isActive := false } else s)

/-- `session.lastActivityAt = new Date(); session.save()`. -/
def touchSession (sessions : List Session) (sid now : Nat) : List Session :=
  sessions.map (fun s => if s.id == sid then { s with lastActivityAt := now } else s)

/-- The user-account check at the end of the authenticate middleware: the
referenced customer or admin must exist and be active. -/
def userActive (db : AuthDb) (p : JwtPayload) : Bool :=
  match p.userType with
  | .customer =>
    match db.customers.find? (fun c => c.id == p.userId) with
    | some c => c.isActive
    | none => false
  | .admin =>
    match db.admins.find? (fun a => a.id == p.userId) with
    | some a => a.isActive
    | none => false

/-- The `authenticate` middleware, after JWT decoding: absent or inactive
session → invalid-session; active but past `expiresAt` → mark it inactive and
fail session-expired; otherwise refresh `lastActivityAt`, require the user
account to exist and be active, and let the request proceed. -/
def authenticate (db : AuthDb) (p : JwtPayload) (now : Nat) :
    AuthDb × Except AuthError JwtPayload :=
  match findSession db.sessions p.sessionId with
  | none => (db, .error .invalidSession)
  | some session =>
    if !session.isActive then (db, .error .invalidSession)
    else if session.expiresAt < now then
      ({ db with sessions := setSessionInactive db.sessions p.sessionId },
       .error .sessionExpired)
    else
      let db' := { db with sessions := touchSession db.sessions p.sessionId now }
      if userActive db' p then (db', .ok p) else (db', .error .userNotFoundOrInactive)

/-- `AuthService.refreshToken`: look the session up by id, extend `expiresAt`
by the role-appropriate window, and re-issue a JWT carrying the same
session id. -/
def refreshTokenService (db : AuthDb) (userId : Nat) (userType : SessionType)
    (sessionId now : Nat) : AuthDb × Except AuthError JwtPayload :=
  match findSession db.sessions sessionId with
  | none => (db, .error .sessionNotFound)
  | some _ =>
    let hours := if userType == SessionType.admin then adminSessionHours
                 else customerSessionHours
    let sessions' := db.sessions.map (fun s =>
      if s.id == sessionId then { s with expiresAt := now + hours * msPerHour } else s)
    ({ db with sessions := sessions' },
     .ok { userId := userId, userType := userType, sessionId := sessionId })

/-- The `POST /auth/refresh` route: the authenticate middleware runs first and
only then the controller invokes `AuthService.refreshToken` with the decoded
payload. -/
def refreshEndpoint (db : AuthDb) (p : JwtPayload) (now : Nat) :
    AuthDb × Except AuthError JwtPayload :=
  match authenticate db p now with
  | (db', .error e) => (db', .error e)
  | (db', .ok q) => refreshTokenService db' q.userId q.userType q.sessionId now

/-! ## Session lemmas -/

/-- Records that were purged by a delete keyed on a predicate cannot resurface
after a further filter: the pair-query after purge-then-sweep is empty. -/
theorem filter_after_purge {α : Type} (f g : α → Bool) (l : List α) :
    ((l.filter (fun s => !f s)).filter g).filter f = [] := by
  induction l with
  | nil => rfl
  | cons hd tl ih =>
    by_cases hf : f hd = true
    · simpa [List.filter_cons, hf] using ih
    · have hnf : f hd = false := by simpa using hf
      by_cases hg : g hd = true
      · simpa [List.filter_cons, hnf, hg] using ih
      · have hng : g hd = false := by simpa using hg
        simpa [List.filter_cons, hnf, hng] using ih

/-- The pair-query after the purge steps comes back empty. -/
theorem purge_no_pair (sessions : List Session) (uid : Nat) (dh : String) (now : Nat) :
    (purgePairAndStale sessions uid dh now).filter (sessionMatchesPair uid dh) = [] :=
  filter_after_purge (sessionMatchesPair uid dh)
    (fun s => !(s.userId == uid && (decide (s.expiresAt < now) || !s.isActive)))
    (sessions.filter (fun s => !sessionMatchesPair uid dh s))

/-- When the re-query finds a single session, the guard deletes nothing. -/
theorem dedupeGuard_single (l : List Session) (uid : Nat) (dh : String) (ns : Session)
    (h : l.filter (sessionMatchesPair uid dh) = [ns]) : dedupeGuard l uid dh = l := by
  unfold dedupeGuard
  rw [h]
  rfl

/-- After one run of the login session-reconciliation protocol, the
(account, device) pair owns exactly one session record. -/
theorem countPair_reconcile (sessions : List Session) (uid : Nat) (dh : String)
    (now sid : Nat) (tok : String) :
    countPairSessions (reconcileCustomerSessions sessions uid dh now sid tok).1 uid dh
      = 1 := by
  have hfilter :
      (purgePairAndStale sessions uid dh now ++
          [freshCustomerSession uid dh now sid tok]).filter (sessionMatchesPair uid dh) =
        [freshCustomerSession uid dh now sid tok] := by
    rw [List.filter_append, purge_no_pair]
    simp [sessionMatchesPair, freshCustomerSession]
  unfold reconcileCustomerSessions countPairSessions
  rw [dedupeGuard_single _ _ _ _ hfilter, hfilter]
  rfl

/-- A successful `loginCustomer` leaves exactly one session record for the
logged-in account and the presented device. -/
theorem loginCustomer_ok_countPair (db : AuthDb) (email password deviceId : String)
    (now sid : Nat) (tok : String) (db' : AuthDb) (out : JwtPayload)
    (h : loginCustomer db email password deviceId now sid tok = (db', .ok out)) :
    countPairSessions db'.sessions out.userId (hashData deviceId) = 1 := by
  unfold loginCustomer at h
  split at h
  · simp at h
  · split at h
    · simp at h
    · split at h
      · simp at h
      · split at h
        · simp at h
        · split at h
          · simp at h
          · simp only [Prod.mk.injEq, Except.ok.injEq] at h
            obtain ⟨hdb, hout⟩ := h
            subst hdb
            subst hout
            exact countPair_reconcile ..

/-! ## Concrete accounts and sessions for the authentication scenarios -/

/-- A verified device. -/
def wDeviceA : Device :=
  { deviceId := "dev-A", deviceIdHash := hashData "dev-A", isVerified := true, createdAt := 0 }

/-- A registered but not yet verified device. -/
def wDeviceB : Device :=
  { deviceId := "dev-B", deviceIdHash := hashData "dev-B", isVerified := false, createdAt := 0 }

/-- An active customer owning one verified and one unverified device. -/
def wCarol : Customer :=
  { id := 3, email := "carol@example.com", phone := "0788000003",
    password := bcryptHash "Str0ng!pass", balance := 0,
    devices := [wDeviceA, wDeviceB], isActive := true }

/-- The auth store before any login. -/
def wAuthDb : AuthDb := { customers := [wCarol], admins := [], sessions := [] }

/-- Two sequential logins from the same verified device. -/
def wLoginAttempts : List LoginAttempt :=
  [{ now := 100, freshSessionId := 41, freshToken := "tok-41" },
   { now := 200, freshSessionId := 42, freshToken := "tok-42" }]

/-- The store and credential after the two logins. -/
def wTwoLogins : AuthDb × JwtPayload :=
  (loginMany wAuthDb "carol@example.com" "Str0ng!pass" "dev-A" wLoginAttempts).getD
    ({ customers := [], admins := [], sessions := [] },
     { userId := 0, userType := .customer, sessionId := 0 })

/-! ## Session Registry theorems -/

/-- C4: N ≥ 1 sequential successful logins for one (account, device) pair —
each first deleting the pair's session records, additionally sweeping the
account's expired and inactive sessions, creating one fresh-token session, and
re-querying the pair to keep only the most recently created — leave exactly one
session record for that pair once the last login completes. -/
theorem loginMany_single_session (db : AuthDb) (email password deviceId : String)
    (attempts : List LoginAttempt) (r : AuthDb × JwtPayload)
    (hne : attempts ≠ [])
    (h : loginMany db email password deviceId attempts = some r) :
    countPairSessions r.1.sessions r.2.userId (hashData deviceId) = 1 := by
  induction attempts generalizing db with
  | nil => exact absurd rfl hne
  | cons a rest ih =>
    cases rest with
    | nil =>
      simp only [loginMany] at h
      cases hl : loginCustomer db email password deviceId a.now a.freshSessionId
          a.freshToken with
      | mk db1 res =>
        rw [hl] at h
        cases res with
        | error e => simp at h
        | ok out =>
          simp only [Option.some.injEq] at h
          subst h
          exact loginCustomer_ok_countPair _ _ _ _ _ _ _ _ _ hl
    | cons b rest2 =>
      simp only [loginMany] at h
      cases hl : loginCustomer db email password deviceId a.now a.freshSessionId
          a.freshToken with
      | mk db1 res =>
        rw [hl] at h
        cases res with
        | error e => simp at h
        | ok out => exact ih db1 (by simp) h

/-- Witness: two rapid logins from Carol's verified device settle to exactly
one session record for the pair. -/
theorem loginMany_single_session_witness :
    countPairSessions wTwoLogins.1.sessions wTwoLogins.2.userId (hashData "dev-A") = 1 :=
  loginMany_single_session wAuthDb "carol@example.com" "Str0ng!pass" "dev-A"
    wLoginAttempts wTwoLogins (by decide) (by rfl)

/-- C7: with valid credentials on an active account, a login from a device
absent from the account's device list fails device-not-registered, and from a
present-but-unverified device fails device-not-verified; both leave every store
untouched, so no session record is created and no bearer credential issued. -/
theorem loginCustomer_device_gate (db : AuthDb) (email password deviceId : String)
    (now sid : Nat) (tok : String) :
    ∀ customer, db.customers.find? (fun c => c.email == email) = some customer →
      customer.isActive = true →
      bcryptCompare password customer.password = true →
      (customer.devices.find? (fun d => d.deviceIdHash == hashData deviceId) = none →
        loginCustomer db email password deviceId now sid tok =
          (db, .error .deviceNotRegistered)) ∧
      (∀ device,
        customer.devices.find? (fun d => d.deviceIdHash == hashData deviceId) =
          some device →
        device.isVerified = false →
        loginCustomer db email password deviceId now sid tok =
          (db, .error .deviceNotVerified)) := by
  intro customer hc hact hpw
  constructor
  · intro hd
    simp [loginCustomer, hc, hact, hpw, hd]
  · intro device hd hver
    simp [loginCustomer, hc, hact, hpw, hd, hver]

/-- Witness: Carol's login from an unknown device is rejected as unregistered,
and from the registered-but-unverified device as unverified; the store is
unchanged in both cases. -/
theorem loginCustomer_device_gate_witness :
    loginCustomer wAuthDb "carol@example.com" "Str0ng!pass" "dev-C" 100 41 "tok-41" =
      (wAuthDb, .error .deviceNotRegistered) ∧
    loginCustomer wAuthDb "carol@example.com" "Str0ng!pass" "dev-B" 100 41 "tok-41" =
      (wAuthDb, .error .deviceNotVerified) :=
  ⟨(loginCustomer_device_gate wAuthDb "carol@example.com" "Str0ng!pass" "dev-C" 100 41
      "tok-41" wCarol (by rfl) (by rfl) (by rfl)).1 (by rfl),
   (loginCustomer_device_gate wAuthDb "carol@example.com" "Str0ng!pass" "dev-B" 100 41
      "tok-41" wCarol (by rfl) (by rfl) (by rfl)).2 wDeviceB (by rfl) (by rfl)⟩

/-! ## Authenticated-request validation (C6) and refresh (C8) -/

/-- `find?` commutes with a map that does not disturb the predicate. -/
theorem find?_map_stable {α : Type} (p : α → Bool) (f : α → α) (hf : ∀ a, p (f a) = p a)
    (l : List α) : (l.map f).find? p = (l.find? p).map f := by
  induction l with
  | nil => rfl
  | cons hd tl ih =>
    rcases hb : p hd with _ | _
    · rw [List.map_cons, List.find?_cons_of_neg _ (by simp [hf, hb]),
        List.find?_cons_of_neg _ (by simp [hb]), ih]
    · rw [List.map_cons, List.find?_cons_of_pos _ (by simp [hf, hb]),
        List.find?_cons_of_pos _ (by simp [hb])]
      rfl

/-- Refreshing a session's `lastActivityAt` keeps it findable, updated. -/
theorem findSession_touch (l : List Session) (sid now : Nat) (s : Session)
    (h : l.find? (fun x => x.id == sid) = some s) :
    (touchSession l sid now).find? (fun x => x.id == sid) =
      some { s with lastActivityAt := now } := by
  unfold touchSession
  rw [find?_map_stable _ _ (fun a => by by_cases hcc : (a.id == sid) = true <;> simp [hcc]),
    h]
  have hceq : s.id = sid := by simpa using List.find?_some h
  simp [hceq]

/-- C6 (amended): on each authenticated request, an absent or inactive session
fails invalid-session; an active session past `expiresAt` is marked inactive
and fails session-expired; otherwise `lastActivityAt` is refreshed and, the
user account existing and active, the request proceeds. -/
theorem authenticate_spec (db : AuthDb) (p : JwtPayload) (now : Nat) :
    (findSession db.sessions p.sessionId = none →
      authenticate db p now = (db, .error .invalidSession)) ∧
    (∀ s, findSession db.sessions p.sessionId = some s → s.isActive = false →
      authenticate db p now = (db, .error .invalidSession)) ∧
    (∀ s, findSession db.sessions p.sessionId = some s → s.isActive = true →
      s.expiresAt < now →
      authenticate db p now =
        ({ db with sessions := setSessionInactive db.sessions p.sessionId },
         .error .sessionExpired)) ∧
    (∀ s, findSession db.sessions p.sessionId = some s → s.isActive = true →
      ¬ s.expiresAt < now →
      userActive { db with sessions := touchSession db.sessions p.sessionId now } p =
        true →
      authenticate db p now =
        ({ db with sessions := touchSession db.sessions p.sessionId now }, .ok p) ∧
      findSession (authenticate db p now).1.sessions p.sessionId =
        some { s with lastActivityAt := now }) := by
  refine ⟨fun h => ?_, fun s h hin => ?_, fun s h hact hexp => ?_,
    fun s h hact hexp huser => ?_⟩
  · simp [authenticate, h]
  · simp [authenticate, h, hin]
  · simp [authenticate, h, hact, hexp]
  · have he := findSession_touch db.sessions p.sessionId now s h
    refine ⟨by simp [authenticate, h, hact, hexp, huser], ?_⟩
    simp only [authenticate, h, hact, hexp, huser, Bool.not_true, if_false, if_true]
    simpa [findSession, hact] using he

/-- The session of the C6 counterexample: logged out (inactive) but unexpired. -/
def cexSession : Session :=
  { id := 7, userId := 3, userType := .customer, token := "tok-7",
    deviceIdHash := hashData "dev-A", isActive := false, expiresAt := 1000,
    lastActivityAt := 0, createdAt := 0 }

/-- Store holding the inactive, unexpired session of an active customer. -/
def cexAuthDb : AuthDb := { customers := [wCarol], admins := [], sessions := [cexSession] }

/-- C6 counterexample: the session is present and its `expiresAt` has not
passed, yet the request does not proceed with `lastActivityAt` refreshed — the
middleware rejects it (the session is inactive, a case the claim's "otherwise"
branch mislabels) and leaves the store untouched. -/
theorem authenticate_claim_counterexample :
    findSession cexAuthDb.sessions 7 = some cexSession ∧
    ¬ cexSession.expiresAt < 500 ∧
    authenticate cexAuthDb { userId := 3, userType := .customer, sessionId := 7 } 500 =
      (cexAuthDb, .error .invalidSession) :=
  ⟨rfl, by decide, rfl⟩

/-- An active, unexpired session of Carol's. -/
def wSession9 : Session :=
  { id := 9, userId := 3, userType := .customer, token := "tok-9",
    deviceIdHash := hashData "dev-A", isActive := true, expiresAt := 1000,
    lastActivityAt := 0, createdAt := 0 }

/-- The store holding that live session. -/
def wSessionDb : AuthDb := { customers := [wCarol], admins := [], sessions := [wSession9] }

/-- Witness: a request on the live session at time 500 proceeds and stamps
`lastActivityAt`. -/
theorem authenticate_spec_witness :
    authenticate wSessionDb { userId := 3, userType := .customer, sessionId := 9 } 500 =
      ({ wSessionDb with sessions := touchSession wSessionDb.sessions 9 500 },
       .ok { userId := 3, userType := .customer, sessionId := 9 }) ∧
    findSession
        (authenticate wSessionDb { userId := 3, userType := .customer, sessionId := 9 }
          500).1.sessions 9 =
      some { wSession9 with lastActivityAt := 500 } :=
  (authenticate_spec wSessionDb { userId := 3, userType := .customer, sessionId := 9 }
    500).2.2.2 wSession9 (by rfl) (by rfl) (by decide) (by rfl)

/-- C8: the refresh endpoint (the authenticate middleware runs before
`AuthService.refreshToken`) succeeds only for a currently valid session: absent
and inactive sessions fail invalid-session and expired ones session-expired
(also being marked inactive); on success `expiresAt` moves to `now` plus the
principal's window and the re-issued credential carries the same session id;
the admin window is strictly shorter than the customer one. -/
theorem refreshEndpoint_spec (db : AuthDb) (p : JwtPayload) (now : Nat) :
    (findSession db.sessions p.sessionId = none →
      refreshEndpoint db p now = (db, .error .invalidSession)) ∧
    (∀ s, findSession db.sessions p.sessionId = some s → s.isActive = false →
      refreshEndpoint db p now = (db, .error .invalidSession)) ∧
    (∀ s, findSession db.sessions p.sessionId = some s → s.isActive = true →
      s.expiresAt < now →
      refreshEndpoint db p now =
        ({ db with sessions := setSessionInactive db.sessions p.sessionId },
         .error .sessionExpired)) ∧
    (∀ s, findSession db.sessions p.sessionId = some s → s.isActive = true →
      ¬ s.expiresAt < now →
      userActive { db with sessions := touchSession db.sessions p.sessionId now } p =
        true →
      (refreshEndpoint db p now).2 = .ok p ∧
      findSession (refreshEndpoint db p now).1.sessions p.sessionId =
        some { s with lastActivityAt := now,
                      expiresAt := now +
                        (if p.userType == SessionType.admin then adminSessionHours
                         else customerSessionHours) * msPerHour }) ∧
    adminSessionHours < customerSessionHours := by
  have hspec := authenticate_spec db p now
  refine ⟨fun h => ?_, fun s h hin => ?_, fun s h hact hexp => ?_,
    fun s h hact hexp huser => ?_, by decide⟩
  · unfold refreshEndpoint
    rw [hspec.1 h]
  · unfold refreshEndpoint
    rw [hspec.2.1 s h hin]
  · unfold refreshEndpoint
    rw [hspec.2.2.1 s h hact hexp]
  · have hok := (hspec.2.2.2 s h hact hexp huser).1
    have hfound := (hspec.2.2.2 s h hact hexp huser).2
    rw [hok] at hfound
    dsimp only at hfound
    unfold findSession at hfound
    have hceq : s.id = p.sessionId := by
      simpa using List.find?_some (show db.sessions.find? (fun x => x.id == p.sessionId) =
        some s from h)
    have hres : refreshEndpoint db p now =
        ({ db with sessions := (touchSession db.sessions p.sessionId now).map (fun x =>
             if x.id == p.sessionId then
               { x with expiresAt := now +
                   (if p.userType == SessionType.admin then adminSessionHours
                    else customerSessionHours) * msPerHour }
             else x) },
         .ok { userId := p.userId, userType := p.userType, sessionId := p.sessionId }) := by
      unfold refreshEndpoint refreshTokenService findSession
      rw [hok]
      dsimp only
      rw [hfound]
    constructor
    · rw [hres]
    · rw [hres]
      have hmap := find?_map_stable (fun x => x.id == p.sessionId)
        (fun x => if x.id == p.sessionId then
          { x with expiresAt := now +
              (if p.userType == SessionType.admin then adminSessionHours
               else customerSessionHours) * msPerHour }
          else x)
        (fun a => by by_cases hcc : (a.id == p.sessionId) = true <;> simp [hcc])
        (touchSession db.sessions p.sessionId now)
      unfold findSession
      dsimp only
      rw [hmap, hfound]
      simp [hceq]

/-- Witness: refreshing the live customer session at time 500 re-issues the
credential for session 9 and pushes `expiresAt` to 500 plus the 24-hour
customer window. -/
theorem refreshEndpoint_spec_witness :
    (refreshEndpoint wSessionDb { userId := 3, userType := .customer, sessionId := 9 }
        500).2 = .ok { userId := 3, userType := .customer, sessionId := 9 } ∧
    findSession
        (refreshEndpoint wSessionDb { userId := 3, userType := .customer, sessionId := 9 }
          500).1.sessions 9 =
      some { wSession9 with lastActivityAt := 500,
                            expiresAt := 500 + customerSessionHours * msPerHour } :=
  (refreshEndpoint_spec wSessionDb { userId := 3, userType := .customer, sessionId := 9 }
    500).2.2.2.1 wSession9 (by rfl) (by rfl) (by decide) (by rfl)

/-! ## Inbound amount validation (C5) -/

/-- The deposit/withdraw route validation,
`body('amount').isFloat({ min: 0.01 })` (transaction.routes.ts and the
validation middleware): the parsed decimal amount must be at least 0.01;
nothing else about the amount is checked. -/
def validateTransactionAmount (q : Rat) : Bool := decide ((1 : Rat) / 100 ≤ q)

/-- From the spec's words: an amount with at most two decimal places of
precision, i.e. one hundred times it is an integer. -/
def hasAtMostTwoDecimals (q : Rat) : Prop := ∃ n : Int, q * 100 = (n : Rat)

/-- 0.011 passes the route validation. -/
theorem validate_11_over_1000 : validateTransactionAmount (11 / 1000) = true := by
  rw [validateTransactionAmount, decide_eq_true_eq]
  norm_num

/-- 0.011 has three decimal places. -/
theorem not_two_decimals_11_over_1000 : ¬ hasAtMostTwoDecimals (11 / 1000) := by
  rintro ⟨n, hn⟩
  have h10 : (11 : Rat) / 10 = (n : Rat) := by
    rw [← hn]
    norm_num
  have hq : (11 : Rat) = (n : Rat) * 10 := by
    field_simp at h10
    linarith
  have hz : (11 : Int) = n * 10 := by exact_mod_cast hq
  omega

/-- C5 counterexample: 0.011 — three decimal places — passes the inbound
validation for deposit/withdraw. -/
theorem validateAmount_counterexample :
    validateTransactionAmount (11 / 1000) = true ∧
    ¬ hasAtMostTwoDecimals (11 / 1000) :=
  ⟨validate_11_over_1000, not_two_decimals_11_over_1000⟩

/-- C5 (amended): the inbound validation accepts exactly the amounts of at
least 0.01 and imposes no decimal-place bound, so amounts with more than two
decimal places reach the engine. -/
theorem validateAmount_spec :
    (∀ q : Rat, validateTransactionAmount q = true ↔ (1 : Rat) / 100 ≤ q) ∧
    (∃ q : Rat, validateTransactionAmount q = true ∧ ¬ hasAtMostTwoDecimals q) := by
  constructor
  · intro q
    simp [validateTransactionAmount]
  · refine ⟨11 / 1000, ?_, ?_⟩
    · rw [validateTransactionAmount, decide_eq_true_eq]
      norm_num
    · rintro ⟨n, hn⟩
      have h10 : (11 : Rat) / 10 = (n : Rat) := by
        rw [← hn]
        norm_num
      have hq : (11 : Rat) = (n : Rat) * 10 := by
        field_simp at h10
        linarith
      have hz : (11 : Int) = n * 10 := by exact_mod_cast hq
      omega

/-! ## Transaction history & pagination (C9) -/

/-- `Transaction.find({ customerId })` on the store. -/
def transactionsFor (b : Bank) (cid : Nat) : List Txn :=
  b.transactions.filter (fun t => t.customerId == cid)

/-- `.sort({ createdAt: -1 })`: creation time descending; the query has no
secondary sort key. -/
def sortTxnsByCreatedAtDesc (l : List Txn) : List Txn :=
  l.insertionSort (fun a b => b.createdAt ≤ a.createdAt)

/-- The pagination object `TransactionService.getTransactionHistory` builds:
`{ page, limit, total, totalPages: Math.ceil(total / limit) }`. -/
structure Pagination where
  page : Nat
  limit : Nat
  total : Nat
  totalPages : Nat
  deriving Repr, DecidableEq

/-- The JSON keys of the pagination object the service returns. -/
def historyPaginationKeys : List String := ["page", "limit", "total", "totalPages"]

/-- From the spec's words: the metadata field names the claim requires. -/
def claimedPaginationKeys : List String :=
  ["currentPage", "totalPages", "totalCount", "hasNext", "hasPrevious"]

/-- `TransactionService.getTransactionHistory`: skip/limit over the
creation-time-descending sort, plus `countDocuments`; `Math.ceil(total/limit)`
is `(total + limit - 1) / limit` on naturals. -/
def getTransactionHistory (b : Bank) (cid : Nat) (page limit : Nat) :
    List Txn × Pagination :=
  let skip := (page - 1) * limit
  let txns := ((sortTxnsByCreatedAtDesc (transactionsFor b cid)).drop skip).take limit
  let total := (transactionsFor b cid).length
  (txns, { page := page, limit := limit, total := total,
           totalPages := (total + limit - 1) / limit })

/-- All history pages in order, concatenated. -/
def allHistoryPages (b : Bank) (cid : Nat) (limit : Nat) : List Txn :=
  ((List.range (getTransactionHistory b cid 1 limit).2.totalPages).map
    (fun i => (getTransactionHistory b cid (i + 1) limit).1)).flatten

/-- C9 counterexample: the endpoint's pagination metadata has keys
page/limit/total/totalPages — it carries no `hasNext` or `hasPrevious` field,
and of the claimed field names only `totalPages` occurs. -/
theorem history_pagination_keys_counterexample :
    "hasNext" ∉ historyPaginationKeys ∧ "hasPrevious" ∉ historyPaginationKeys ∧
    ¬ claimedPaginationKeys ⊆ historyPaginationKeys := by
  refine ⟨by decide, by decide, fun hsub => ?_⟩
  exact absurd (hsub (show "hasNext" ∈ claimedPaginationKeys by decide)) (by decide)

/-- Taking the pages one after another consumes the sorted list prefix by
prefix. -/
theorem flatten_pages_take {α : Type} (l : List α) (limit : Nat) (k : Nat) :
    ((List.range k).map (fun i => (l.drop (i * limit)).take limit)).flatten =
      l.take (k * limit) := by
  induction k with
  | zero => simp
  | succ n ih =>
    rw [List.range_succ, List.map_append, List.flatten_append]
    simp only [List.map_cons, List.map_nil, List.flatten_cons, List.flatten_nil,
      List.append_nil]
    rw [ih, Nat.succ_mul, List.take_add]

/-- Ceiling division covers the dividend. -/
theorem le_ceilDiv_mul (total limit : Nat) (h : 0 < limit) :
    total ≤ ((total + limit - 1) / limit) * limit := by
  have hdm : limit * ((total + limit - 1) / limit) + (total + limit - 1) % limit
      = total + limit - 1 := Nat.div_add_mod _ _
  have hmod : (total + limit - 1) % limit < limit := Nat.mod_lt _ h
  have hcomm : ((total + limit - 1) / limit) * limit = limit * ((total + limit - 1) / limit) :=
    Nat.mul_comm _ _
  generalize hA : limit * ((total + limit - 1) / limit) = A at hdm hcomm
  rw [hcomm]
  omega

/-- C9 (amended): GetHistory pages are slices of the creation-time-descending
ordering of the account's transactions (no secondary tie-break key); the
metadata carries the current page, the page size, the total count, and the
ceiling-division total page count; and concatenating the pages in order
reproduces the full reverse-chronological transaction list without gaps or
duplicates (a permutation of the account's transactions, sorted by
`createdAt` descending). -/
theorem getTransactionHistory_spec (b : Bank) (cid : Nat) (page limit : Nat)
    (hlim : 0 < limit) :
    (getTransactionHistory b cid page limit).2 =
      { page := page, limit := limit, total := (transactionsFor b cid).length,
        totalPages := ((transactionsFor b cid).length + limit - 1) / limit } ∧
    (getTransactionHistory b cid page limit).1 =
      ((sortTxnsByCreatedAtDesc (transactionsFor b cid)).drop ((page - 1) * limit)).take
        limit ∧
    List.Pairwise (fun a b => b.createdAt ≤ a.createdAt)
      (sortTxnsByCreatedAtDesc (transactionsFor b cid)) ∧
    (sortTxnsByCreatedAtDesc (transactionsFor b cid)).Perm (transactionsFor b cid) ∧
    allHistoryPages b cid limit = sortTxnsByCreatedAtDesc (transactionsFor b cid) := by
  refine ⟨rfl, rfl, ?_, List.perm_insertionSort _ _, ?_⟩
  · haveI htot : IsTotal Txn (fun a b => b.createdAt ≤ a.createdAt) :=
      ⟨fun a b => Nat.le_total b.createdAt a.createdAt⟩
    haveI htr : IsTrans Txn (fun a b => b.createdAt ≤ a.createdAt) :=
      ⟨fun _ _ _ h1 h2 => Nat.le_trans h2 h1⟩
    exact List.sorted_insertionSort _ _
  · unfold allHistoryPages getTransactionHistory
    simp only [Nat.add_sub_cancel]
    rw [flatten_pages_take]
    apply List.take_of_length_le
    have hlen : (sortTxnsByCreatedAtDesc (transactionsFor b cid)).length =
        (transactionsFor b cid).length := (List.perm_insertionSort _ _).length_eq
    rw [hlen]
    exact le_ceilDiv_mul _ _ hlim

/-- A store with three transactions of one customer, for the pagination
witness. -/
def historyBank : Bank :=
  { customers := [wAlice],
    transactions :=
      [{ id := 31, customerId := 1, type := .deposit, amount := 5, balanceBefore := 0,
         balanceAfter := 5, status := .completed, reference := "DEP-31", createdAt := 10 },
       { id := 32, customerId := 1, type := .deposit, amount := 5, balanceBefore := 5,
         balanceAfter := 10, status := .completed, reference := "DEP-32", createdAt := 20 },
       { id := 33, customerId := 1, type := .withdrawal, amount := 3, balanceBefore := 10,
         balanceAfter := 7, status := .completed, reference := "WTH-33", createdAt := 30 }] }

/-- Witness: with three transactions and page size 2, the concatenated pages
reproduce the full reverse-chronological list. -/
theorem getTransactionHistory_spec_witness :
    allHistoryPages historyBank 1 2 =
      sortTxnsByCreatedAtDesc (transactionsFor historyBank 1) :=
  (getTransactionHistory_spec historyBank 1 1 2 (by decide)).2.2.2.2

/-! ## Registration and the device-hash unique index (C10) -/

/-- Every device hash embedded anywhere in the customer store: the key set of
the `devices.deviceIdHash` unique index `DeviceSchema` declares. -/
def allDeviceHashes (cs : List Customer) : List String :=
  (cs.map (fun c => c.devices.map (fun d => d.deviceIdHash))).flatten

/-- Outcomes of `AuthService.registerCustomer`: the 409 conflict thrown by the
service, or the store-level E11000 duplicate-key rejection of the insert. -/
inductive RegisterError where
  | conflict
  | duplicateKey
  deriving Repr, DecidableEq

/-- `AuthService.registerCustomer`: reject an already-registered email or
phone with a conflict, then insert the new customer with one unverified
device; the insert enforces the `devices.deviceIdHash` unique index, so a hash
already present anywhere in the store makes it fail with a duplicate-key
error. -/
def registerCustomer (cs : List Customer) (email phone password deviceId : String)
    (freshId now : Nat) : List Customer × Except RegisterError Customer :=
  if cs.any (fun c => c.email == email || c.phone == phone) then
    (cs, .error .conflict)
  else if (allDeviceHashes cs).contains (hashData deviceId) then
    (cs, .error .duplicateKey)
  else
    let newCustomer : Customer :=
      { id := freshId, email := email, phone := phone, password := bcryptHash password,
        balance := 0,
        devices := [{ deviceId := deviceId, deviceIdHash := hashData deviceId,
                      isVerified := false, createdAt := now }],
        isActive := true }
    (cs ++ [newCustomer], .ok newCustomer)

/-- C10: registering with a device identifier whose hash is already embedded in
any customer document fails with the store-level duplicate-key error even when
the email and phone are fresh, and a successful registration preserves the
global pairwise distinctness of device hashes. -/
theorem registerCustomer_device_unique (cs : List Customer)
    (email phone password deviceId : String) (freshId now : Nat) :
    (cs.any (fun c => c.email == email || c.phone == phone) = false →
      hashData deviceId ∈ allDeviceHashes cs →
      registerCustomer cs email phone password deviceId freshId now =
        (cs, .error .duplicateKey)) ∧
    ((allDeviceHashes cs).Nodup →
      ∀ cs' c, registerCustomer cs email phone password deviceId freshId now =
        (cs', .ok c) →
      (allDeviceHashes cs').Nodup) := by
  constructor
  · intro h1 h2
    simp [registerCustomer, h1, h2]
  · intro hnodup cs' c hreg
    unfold registerCustomer at hreg
    split at hreg
    · simp at hreg
    · split at hreg
      · simp at hreg
      · rename_i hmemif
        have hmem : hashData deviceId ∉ allDeviceHashes cs := by simpa using hmemif
        simp only [Prod.mk.injEq, Except.ok.injEq] at hreg
        obtain ⟨hcs, _⟩ := hreg
        subst hcs
        unfold allDeviceHashes
        rw [List.map_append, List.flatten_append]
        simp only [List.map_cons, List.map_nil, List.flatten_cons, List.flatten_nil,
          List.append_nil]
        rw [List.nodup_append]
        refine ⟨hnodup, by simp, fun x hx hxs => ?_⟩
        simp only [List.mem_singleton] at hxs
        subst hxs
        exact hmem hx

/-- Witness: registering a new customer with fresh email and phone but with
Carol's already-registered device fails with the duplicate-key error and
leaves the store unchanged. -/
theorem registerCustomer_device_unique_witness :
    registerCustomer [wCarol] "dora@example.com" "0788000004" "Pass!234" "dev-A" 4 50 =
      ([wCarol], .error .duplicateKey) :=
  (registerCustomer_device_unique [wCarol] "dora@example.com" "0788000004" "Pass!234"
    "dev-A" 4 50).1 (by rfl) (by simp [allDeviceHashes, wCarol, wDeviceA, wDeviceB, hashData])

end CreditJambo
